import Mathlib

/-!
Verification development for gomuks/push (src/push.go), an FCM push gateway.

The Go source is shallowly embedded below:
* `b64Encode` / `b64Decode` model Go's `encoding/base64` standard encoding
  (RFC 4648 alphabet, `=` padding, non-strict about unused padding bits on
  decode, exactly as `base64.StdEncoding`), over bytes represented as `Nat`
  values below 256.
* `PushRequest`, `PushRequest.ToFCM`, `PushRequest.GetPriority` embed the
  corresponding Go declarations (struct fields are named by their JSON tags:
  Go `Token`/`Owner`/`Payload`/`HighPriority` carry tags
  `token`/`owner`/`payload`/`high_priority`).
* `Json`, `applyField`, `decodeFields`, `decodePushRequest`, `decodeGo` model
  `json.NewDecoder(r.Body).Decode(&req)` for this struct: a syntactically
  malformed body is `Except.error`, a well-formed JSON document is decoded
  with Go `encoding/json` semantics (top-level `null` and missing fields
  leave zero values, unknown fields are ignored, a wrongly-typed field or an
  invalid-base64 `payload` string is an error).
* `handlePushProxy` embeds the handler of the same name, with the provider
  call `fcmClient.Send` abstracted as a function argument `send`, and the
  observable effects (status written, whether the body was decoded, the
  provider calls made, the structured log lines emitted) collected in
  `HandlerResult`.
-/

namespace GomuksPush

/-- The base64 standard alphabet, as in Go `encoding/base64.StdEncoding`:
index 0-25 ↦ 'A'-'Z', 26-51 ↦ 'a'-'z', 52-61 ↦ '0'-'9', 62 ↦ '+', 63 ↦ '/'. -/
def b64Char (n : Nat) : Char :=
  if n < 26 then Char.ofNat (65 + n)
  else if n < 52 then Char.ofNat (97 + (n - 26))
  else if n < 62 then Char.ofNat (48 + (n - 52))
  else if n = 62 then '+'
  else '/'

/-- Inverse of the standard alphabet; `none` for a character outside it. -/
def b64Index (c : Char) : Option Nat :=
  if 'A' ≤ c ∧ c ≤ 'Z' then some (c.toNat - 65)
  else if 'a' ≤ c ∧ c ≤ 'z' then some (c.toNat - 97 + 26)
  else if '0' ≤ c ∧ c ≤ '9' then some (c.toNat - 48 + 52)
  else if c = '+' then some 62
  else if c = '/' then some 63
  else none

/-- Standard base64 encoding with padding, as produced by Go
`base64.StdEncoding.EncodeToString`: bytes are consumed three at a time,
a final group of one or two bytes is padded with `=`. -/
def b64Encode : List Nat → List Char
  | [] => []
  | [a] => [b64Char (a / 4), b64Char (a % 4 * 16), '=', '=']
  | [a, b] => [b64Char (a / 4), b64Char (a % 4 * 16 + b / 16), b64Char (b % 16 * 4), '=']
  | a :: b :: c :: rest =>
    b64Char (a / 4) :: b64Char (a % 4 * 16 + b / 16) :: b64Char (b % 16 * 4 + c / 64) ::
      b64Char (c % 64) :: b64Encode rest

/-- Standard base64 decoding, as performed by Go `base64.StdEncoding`:
characters are consumed four at a time, `=` padding is accepted only at the
end, and (like Go's non-strict mode) unused padding bits are ignored. -/
def b64Decode : List Char → Option (List Nat)
  | w :: x :: y :: z :: rest =>
    match b64Index w, b64Index x with
    | some dw, some dx =>
      if y = '=' then
        if z = '=' ∧ rest = [] then some [dw * 4 + dx / 16] else none
      else
        match b64Index y with
        | some dy =>
          if z = '=' then
            if rest = [] then some [dw * 4 + dx / 16, dx % 16 * 16 + dy / 4] else none
          else
            match b64Index z, b64Decode rest with
            | some dz, some tail =>
              some ((dw * 4 + dx / 16) :: (dx % 16 * 16 + dy / 4) :: (dy % 4 * 64 + dz) :: tail)
            | _, _ => none
        | none => none
    | _, _ => none
  | [] => some []
  | _ => none

/-- Go `base64.StdEncoding.EncodedLen`: `(n + 2) / 3 * 4`. -/
def encodedLen (n : Nat) : Nat := (n + 2) / 3 * 4

theorem b64Index_b64Char : ∀ n, n < 64 → b64Index (b64Char n) = some n := by decide

theorem b64Char_ne_pad : ∀ n, n < 64 → b64Char n ≠ '=' := by decide

/-- Decoding inverts encoding on every byte sequence (bytes below 256). -/
theorem b64_round_trip : ∀ l : List Nat, (∀ x ∈ l, x < 256) → b64Decode (b64Encode l) = some l := by
  intro l
  induction l using b64Encode.induct with
  | case1 => intro _; rfl
  | case2 a =>
    intro h
    have ha : a < 256 := h a (by simp)
    have e1 := b64Index_b64Char (a / 4) (by omega)
    have e2 := b64Index_b64Char (a % 4 * 16) (by omega)
    rw [b64Encode, b64Decode]
    simp [e1, e2]
    omega
  | case3 a b =>
    intro h
    have ha : a < 256 := h a (by simp)
    have hb : b < 256 := h b (by simp)
    have e1 := b64Index_b64Char (a / 4) (by omega)
    have e2 := b64Index_b64Char (a % 4 * 16 + b / 16) (by omega)
    have e3 := b64Index_b64Char (b % 16 * 4) (by omega)
    have n3 := b64Char_ne_pad (b % 16 * 4) (by omega)
    rw [b64Encode, b64Decode]
    simp [e1, e2, e3, n3]
    omega
  | case4 a b c rest ih =>
    intro h
    have ha : a < 256 := h a (by simp)
    have hb : b < 256 := h b (by simp)
    have hc : c < 256 := h c (by simp)
    have hrest : ∀ x ∈ rest, x < 256 := fun x hx => h x (by simp [hx])
    have e1 := b64Index_b64Char (a / 4) (by omega)
    have e2 := b64Index_b64Char (a % 4 * 16 + b / 16) (by omega)
    have e3 := b64Index_b64Char (b % 16 * 4 + c / 64) (by omega)
    have e4 := b64Index_b64Char (c % 64) (by omega)
    have n3 := b64Char_ne_pad (b % 16 * 4 + c / 64) (by omega)
    have n4 := b64Char_ne_pad (c % 64) (by omega)
    rw [b64Encode, b64Decode]
    simp [e1, e2, e3, e4, n3, n4, ih hrest]
    omega

/-- Go struct `PushRequest` (src/push.go): fields are named here by their
JSON tags (`Token`/`Owner`/`Payload`/`HighPriority` in Go). `payload`
(Go `[]byte`) is a byte sequence, each byte below 256. -/
structure PushRequest where
  token : String
  owner : String
  payload : List Nat
  high_priority : Bool
deriving DecidableEq

/-- The Go zero value of `PushRequest`, which is what `json.Decode` starts
from (`var req PushRequest`): empty strings, nil byte slice, false. -/
def PushRequest.zero : PushRequest :=
  { token := "", owner := "", payload := [], high_priority := false }

/-- The fields of `messaging.AndroidConfig` set by `PushRequest.ToFCM`. -/
structure AndroidConfig where
  restrictedPackageName : String
  priority : String
deriving DecidableEq

/-- The fields of `messaging.Message` set by `PushRequest.ToFCM`: the data
map (here an association list — the source sets the single key "payload"),
the android config, and the recipient token. -/
structure Message where
  data : List (String × String)
  android : AndroidConfig
  token : String
deriving DecidableEq

/-- Go `(*PushRequest).GetPriority`. -/
def PushRequest.GetPriority (pr : PushRequest) : String :=
  if pr.high_priority then "high" else "normal"

/-- Go `(*PushRequest).ToFCM`; `fcmPackageName` is the process-wide constant
read from the environment at startup. -/
def PushRequest.ToFCM (pr : PushRequest) (fcmPackageName : String) : Message :=
  { data := [("payload", String.mk (b64Encode pr.payload))]
    android := { restrictedPackageName := fcmPackageName, priority := pr.GetPriority }
    token := pr.token }

/-- Go constant `maxPayloadLength`. -/
def maxPayloadLength : Nat := 4000

/-- Go constant `maxContentLength`; compared against `r.ContentLength`,
a Go `int64` that is `-1` when the transport declares no length. -/
def maxContentLength : Int := 4096

/-- The push route registered on the mux and re-checked in the handler. -/
def pushPath : String := "/_gomuks/push/fcm"

/-- JSON documents, as far as Go `encoding/json` distinguishes them for
decoding into `PushRequest`. Numbers are modelled as integers: any number
is a type error for every field of `PushRequest`, so their value is never
inspected. -/
inductive Json where
  | null
  | bool (b : Bool)
  | num (n : Int)
  | str (s : String)
  | arr (xs : List Json)
  | obj (fields : List (String × Json))

/-- Go `encoding/json` decoding of a single object member into the
`PushRequest` being built: `token` and `owner` (Go `string`) accept a JSON
string, `payload` (Go `[]byte`) accepts a JSON string holding standard
base64, `high_priority` (Go `bool`) accepts a JSON boolean; JSON `null`
leaves any field untouched; unknown keys are ignored; anything else is a
type error. The per-field decoders follow, combined by `applyField`. -/
def applyToken (req : PushRequest) : Json → Except Unit PushRequest
  | Json.str s => .ok { req with token := s }
  | Json.null => .ok req
  | _ => .error ()

def applyOwner (req : PushRequest) : Json → Except Unit PushRequest
  | Json.str s => .ok { req with owner := s }
  | Json.null => .ok req
  | _ => .error ()

def applyPayload (req : PushRequest) : Json → Except Unit PushRequest
  | Json.str s =>
    match b64Decode s.data with
    | some l => .ok { req with payload := l }
    | none => .error ()
  | Json.null => .ok req
  | _ => .error ()

def applyHighPriority (req : PushRequest) : Json → Except Unit PushRequest
  | Json.bool b => .ok { req with high_priority := b }
  | Json.null => .ok req
  | _ => .error ()

def applyField (req : PushRequest) (key : String) (v : Json) : Except Unit PushRequest :=
  if key = "token" then applyToken req v
  else if key = "owner" then applyOwner req v
  else if key = "payload" then applyPayload req v
  else if key = "high_priority" then applyHighPriority req v
  else .ok req

/-- Decode the members of a JSON object in order, stopping at the first
type error, as Go's stream decoder does. -/
def decodeFields (req : PushRequest) : List (String × Json) → Except Unit PushRequest
  | [] => .ok req
  | kv :: rest =>
    match applyField req kv.1 kv.2 with
    | .ok r => decodeFields r rest
    | .error e => .error e

/-- Go `json.Unmarshal` semantics for a well-formed JSON document decoded
into `PushRequest`: top-level `null` is a no-op on the zero value, an object
is decoded member by member, and any other document is a type error. -/
def decodePushRequest : Json → Except Unit PushRequest
  | Json.null => .ok PushRequest.zero
  | Json.obj fields => decodeFields PushRequest.zero fields
  | _ => .error ()

/-- Go `json.NewDecoder(r.Body).Decode(&req)`: the body either fails to
parse as JSON at all (`Except.error` input, e.g. malformed syntax or an
empty body) or yields a document that is decoded per `decodePushRequest`. -/
def decodeGo : Except Unit Json → Except Unit PushRequest
  | .error e => .error e
  | .ok j => decodePushRequest j

/-- One structured log line emitted by the handler via zerolog: the error
(if any), the `push_token` and `owner` string fields, the `message_id`
field (success branch only), and the message text. -/
structure LogLine where
  err : Option String
  push_token : String
  owner : String
  message_id : Option String
  msg : String
deriving DecidableEq

/-- Observable behaviour of one `handlePushProxy` invocation: the HTTP
status written, whether the body was read and passed to the JSON decoder,
the list of provider `Send` calls made (their messages, in order), and the
structured log lines emitted. -/
structure HandlerResult where
  status : Nat
  decodeAttempted : Bool
  sendCalls : List Message
  logs : List LogLine
deriving DecidableEq

/-- Go `handlePushProxy` (src/push.go). `fcmPackageName` is the startup
constant, `send` abstracts `fcmClient.Send` (returning a message id or an
error whose `Error()` string is modelled), `path` is `r.URL.Path`,
`contentLength` is `r.ContentLength`, and `body` is the JSON-parse outcome
of the request body. The branch structure mirrors the source's if/else
chain; statuses are the Go `http.Status*` numerals. -/
def handlePushProxy (fcmPackageName : String) (send : Message → Except String String)
    (path : String) (contentLength : Int) (body : Except Unit Json) : HandlerResult :=
  if path ≠ pushPath then
    { status := 404, decodeAttempted := false, sendCalls := [], logs := [] }
  else if contentLength > maxContentLength then
    { status := 413, decodeAttempted := false, sendCalls := [], logs := [] }
  else
    match decodeGo body with
    | .error _ => { status := 400, decodeAttempted := true, sendCalls := [], logs := [] }
    | .ok req =>
      if encodedLen req.payload.length > maxPayloadLength then
        { status := 413, decodeAttempted := true, sendCalls := [], logs := [] }
      else
        match send (req.ToFCM fcmPackageName) with
        | .error e =>
          let line : LogLine :=
            { err := some e, push_token := req.token, owner := req.owner,
              message_id := none, msg := "Failed to send FCM request" }
          if e = "Requested entity was not found." ∨ e = "SenderId mismatch" then
            { status := 404, decodeAttempted := true,
              sendCalls := [req.ToFCM fcmPackageName], logs := [line] }
          else
            { status := 500, decodeAttempted := true,
              sendCalls := [req.ToFCM fcmPackageName], logs := [line] }
        | .ok resp =>
          { status := 200, decodeAttempted := true,
            sendCalls := [req.ToFCM fcmPackageName],
            logs := [{ err := none, push_token := req.token, owner := req.owner,
                       message_id := some resp, msg := "Sent FCM request" }] }

/-- Helper: a JSON object whose single member is a valid base64 `payload`
decodes to the zero request with that payload. -/
theorem decodeGo_payload_only (l : List Nat) (h : ∀ x ∈ l, x < 256) :
    decodeGo (.ok (Json.obj [("payload", Json.str (String.mk (b64Encode l)))])) =
      .ok { token := "", owner := "", payload := l, high_priority := false } := by
  simp [decodeGo, decodePushRequest, decodeFields, applyField, applyPayload,
    PushRequest.zero, b64_round_trip l h]

/-- Helper: past the routing and content-length guards, the handler always
reaches the JSON decoding step. -/
theorem handler_decodeAttempted (pkg : String) (send : Message → Except String String)
    (cl : Int) (body : Except Unit Json) (hcl : ¬ cl > maxContentLength) :
    (handlePushProxy pkg send pushPath cl body).decodeAttempted = true := by
  unfold handlePushProxy
  rw [if_neg (by simp), if_neg hcl]
  rcases decodeGo body with _ | req
  · rfl
  · dsimp only
    split
    · rfl
    · rcases send (req.ToFCM pkg) with e | resp
      · dsimp only
        split <;> rfl
      · rfl

/-- A convenient concrete oversized payload: 3001 zero bytes, whose
standard-base64 encoding is 4004 characters long. -/
def bigPayload : List Nat := List.replicate 3001 0

/-- Claim C1: every request that parses into a `PushRequest` whose
standard-base64-encoded payload length exceeds 4000 is answered 413 and the
provider `Send` is never invoked for it. -/
theorem claim_C1 (pkg : String) (send : Message → Except String String)
    (cl : Int) (body : Except Unit Json) (req : PushRequest)
    (hcl : cl ≤ maxContentLength) (hd : decodeGo body = .ok req)
    (hs : encodedLen req.payload.length > maxPayloadLength) :
    (handlePushProxy pkg send pushPath cl body).status = 413 ∧
    (handlePushProxy pkg send pushPath cl body).sendCalls = [] := by
  simp [handlePushProxy, hd, hs, not_lt.mpr hcl]

theorem claim_C1_witness :
    (handlePushProxy "pkg" (fun _ => .ok "msg-1") pushPath 100
      (.ok (Json.obj [("payload", Json.str (String.mk (b64Encode bigPayload)))]))).status = 413 ∧
    (handlePushProxy "pkg" (fun _ => .ok "msg-1") pushPath 100
      (.ok (Json.obj [("payload", Json.str (String.mk (b64Encode bigPayload)))]))).sendCalls = [] :=
  claim_C1 "pkg" (fun _ => .ok "msg-1") 100
    (.ok (Json.obj [("payload", Json.str (String.mk (b64Encode bigPayload)))]))
    { token := "", owner := "", payload := bigPayload, high_priority := false }
    (by decide)
    (decodeGo_payload_only bigPayload
      (by intro x hx; rw [bigPayload, List.mem_replicate] at hx; omega))
    (by show encodedLen (List.replicate 3001 0).length > maxPayloadLength
        rw [List.length_replicate]; decide)

/-- Claim C4: a request on the push path whose declared content length
exceeds 4096 is answered 413 without reading the body (no JSON decoding)
and without any provider call. -/
theorem claim_C4 (pkg : String) (send : Message → Except String String)
    (cl : Int) (body : Except Unit Json) (hcl : cl > maxContentLength) :
    (handlePushProxy pkg send pushPath cl body).status = 413 ∧
    (handlePushProxy pkg send pushPath cl body).decodeAttempted = false ∧
    (handlePushProxy pkg send pushPath cl body).sendCalls = [] := by
  simp [handlePushProxy, hcl]

theorem claim_C4_witness :
    (handlePushProxy "pkg" (fun _ => .ok "msg-1") pushPath 5000 (.error ())).status = 413 ∧
    (handlePushProxy "pkg" (fun _ => .ok "msg-1") pushPath 5000 (.error ())).decodeAttempted = false ∧
    (handlePushProxy "pkg" (fun _ => .ok "msg-1") pushPath 5000 (.error ())).sendCalls = [] :=
  claim_C4 "pkg" (fun _ => .ok "msg-1") 5000 (.error ()) (by decide)

/-- Claim C3 counterexample: the body `\x7b\x7d` (a JSON object with every
field missing) does NOT fail to parse — Go `encoding/json` leaves missing
fields at their zero values — so the handler does not answer 400 and the
provider IS invoked. -/
theorem claim_C3_counterexample :
    decodeGo (.ok (Json.obj [])) = .ok PushRequest.zero ∧
    (handlePushProxy "pkg" (fun _ => .ok "msg-1") pushPath 2 (.ok (Json.obj []))).status = 200 ∧
    (handlePushProxy "pkg" (fun _ => .ok "msg-1") pushPath 2 (.ok (Json.obj []))).sendCalls ≠ [] := by
  refine ⟨rfl, rfl, ?_⟩
  decide

/-- Claim C3 (amended): every request body that fails to parse into the
`PushRequest` shape (malformed JSON, a wrongly-typed field, or an
invalid-base64 payload string) is answered 400 without invoking the
provider; bodies with missing fields, however, parse successfully to zero
values and are not rejected. -/
theorem claim_C3_amended (pkg : String) (send : Message → Except String String)
    (cl : Int) (body : Except Unit Json)
    (hcl : cl ≤ maxContentLength) (hd : decodeGo body = .error ()) :
    (handlePushProxy pkg send pushPath cl body).status = 400 ∧
    (handlePushProxy pkg send pushPath cl body).sendCalls = [] := by
  simp [handlePushProxy, hd, not_lt.mpr hcl]

theorem claim_C3_amended_witness :
    (handlePushProxy "pkg" (fun _ => .ok "msg-1") pushPath 2 (.ok (Json.num 3))).status = 400 ∧
    (handlePushProxy "pkg" (fun _ => .ok "msg-1") pushPath 2 (.ok (Json.num 3))).sendCalls = [] :=
  claim_C3_amended "pkg" (fun _ => .ok "msg-1") 2 (.ok (Json.num 3)) (by decide) rfl

/-- Claim C2: when the provider call fails, the handler answers 404 exactly
when the failure is one of the two known signatures ("Requested entity was
not found." or "SenderId mismatch"), and 500 for every other failure. -/
theorem claim_C2 (pkg : String) (send : Message → Except String String)
    (cl : Int) (body : Except Unit Json) (req : PushRequest) (e : String)
    (hcl : cl ≤ maxContentLength) (hd : decodeGo body = .ok req)
    (hs : encodedLen req.payload.length ≤ maxPayloadLength)
    (he : send (req.ToFCM pkg) = .error e) :
    ((handlePushProxy pkg send pushPath cl body).status = 404 ↔
      e = "Requested entity was not found." ∨ e = "SenderId mismatch") ∧
    (¬(e = "Requested entity was not found." ∨ e = "SenderId mismatch") →
      (handlePushProxy pkg send pushPath cl body).status = 500) := by
  by_cases hc : e = "Requested entity was not found." ∨ e = "SenderId mismatch" <;>
    simp [handlePushProxy, hd, he, not_lt.mpr hcl, not_lt.mpr hs, hc]

theorem claim_C2_witness :
    ((handlePushProxy "pkg" (fun _ => .error "SenderId mismatch") pushPath 2
      (.ok Json.null)).status = 404 ↔
      ("SenderId mismatch" : String) = "Requested entity was not found." ∨
      ("SenderId mismatch" : String) = "SenderId mismatch") ∧
    (¬(("SenderId mismatch" : String) = "Requested entity was not found." ∨
       ("SenderId mismatch" : String) = "SenderId mismatch") →
      (handlePushProxy "pkg" (fun _ => .error "SenderId mismatch") pushPath 2
        (.ok Json.null)).status = 500) :=
  claim_C2 "pkg" (fun _ => .error "SenderId mismatch") 2 (.ok Json.null)
    PushRequest.zero "SenderId mismatch" (by decide) rfl (by decide) rfl

/-- Claim C5: the translator stores the payload standard-base64-encoded in
the message's data field under the fixed key "payload"; decoding that field
yields exactly the original payload, and the token is copied verbatim. -/
theorem claim_C5 (pr : PushRequest) (pkg : String) (h : ∀ x ∈ pr.payload, x < 256) :
    ∃ s, (pr.ToFCM pkg).data.lookup "payload" = some s ∧
      b64Decode s.data = some pr.payload ∧ (pr.ToFCM pkg).token = pr.token := by
  exact ⟨String.mk (b64Encode pr.payload), rfl, b64_round_trip pr.payload h, rfl⟩

theorem claim_C5_witness :
    ∃ s, (PushRequest.ToFCM ⟨"tok", "own", [104, 105], true⟩ "pkg").data.lookup "payload" =
        some s ∧
      b64Decode s.data = some [104, 105] ∧
      (PushRequest.ToFCM ⟨"tok", "own", [104, 105], true⟩ "pkg").token = "tok" :=
  claim_C5 ⟨"tok", "own", [104, 105], true⟩ "pkg" (by decide)

/-- Claim C6: every request that passes routing, the content-length check,
parsing and the payload-size check triggers exactly one provider `Send`
call, and when that call succeeds the handler answers 200. -/
theorem claim_C6 (pkg : String) (send : Message → Except String String)
    (cl : Int) (body : Except Unit Json) (req : PushRequest)
    (hcl : cl ≤ maxContentLength) (hd : decodeGo body = .ok req)
    (hs : encodedLen req.payload.length ≤ maxPayloadLength) :
    (handlePushProxy pkg send pushPath cl body).sendCalls = [req.ToFCM pkg] ∧
    (∀ mid, send (req.ToFCM pkg) = .ok mid →
      (handlePushProxy pkg send pushPath cl body).status = 200) := by
  rcases hsend : send (req.ToFCM pkg) with e | resp
  · constructor
    · by_cases hc : e = "Requested entity was not found." ∨ e = "SenderId mismatch" <;>
        simp [handlePushProxy, hd, hsend, not_lt.mpr hcl, not_lt.mpr hs, hc]
    · intro mid hmid
      simp at hmid
  · simp [handlePushProxy, hd, hsend, not_lt.mpr hcl, not_lt.mpr hs]

theorem claim_C6_witness :
    (handlePushProxy "pkg" (fun _ => .ok "msg-1") pushPath 2 (.ok Json.null)).sendCalls =
      [PushRequest.zero.ToFCM "pkg"] ∧
    (∀ mid, (fun _ : Message => (.ok "msg-1" : Except String String))
        (PushRequest.zero.ToFCM "pkg") = .ok mid →
      (handlePushProxy "pkg" (fun _ => .ok "msg-1") pushPath 2 (.ok Json.null)).status = 200) :=
  claim_C6 "pkg" (fun _ => .ok "msg-1") 2 (.ok Json.null) PushRequest.zero
    (by decide) rfl (by decide)

/-- Claim C8 counterexample: a malformed body is a validation rejection
(status 400) for which the handler emits no log line at all, contradicting
the claim that every validation rejection produces a structured log line
carrying the recipient token and owner label. -/
theorem claim_C8_counterexample :
    (handlePushProxy "pkg" (fun _ => .ok "msg-1") pushPath 2 (.error ())).status = 400 ∧
    (handlePushProxy "pkg" (fun _ => .ok "msg-1") pushPath 2 (.error ())).logs = [] := by
  decide

/-- Claim C8 (amended): every provider-call outcome produces exactly one
structured log line carrying the recipient token and owner label, while
validation rejections (400 on parse failure, 413 on oversized payload)
produce no log line in the handler. -/
theorem claim_C8_amended (pkg : String) (send : Message → Except String String)
    (cl : Int) (body : Except Unit Json) (hcl : cl ≤ maxContentLength) :
    (∀ req, decodeGo body = .ok req → encodedLen req.payload.length ≤ maxPayloadLength →
      ∃ l, (handlePushProxy pkg send pushPath cl body).logs = [l] ∧
        l.push_token = req.token ∧ l.owner = req.owner) ∧
    (decodeGo body = .error () →
      (handlePushProxy pkg send pushPath cl body).logs = []) ∧
    (∀ req, decodeGo body = .ok req → encodedLen req.payload.length > maxPayloadLength →
      (handlePushProxy pkg send pushPath cl body).logs = []) := by
  refine ⟨?_, ?_, ?_⟩
  · intro req hd hs
    rcases hsend : send (req.ToFCM pkg) with e | resp
    · refine ⟨⟨some e, req.token, req.owner, none, "Failed to send FCM request"⟩, ?_, rfl, rfl⟩
      by_cases hc : e = "Requested entity was not found." ∨ e = "SenderId mismatch" <;>
        simp [handlePushProxy, hd, hsend, not_lt.mpr hcl, not_lt.mpr hs, hc]
    · refine ⟨⟨none, req.token, req.owner, some resp, "Sent FCM request"⟩, ?_, rfl, rfl⟩
      simp [handlePushProxy, hd, hsend, not_lt.mpr hcl, not_lt.mpr hs]
  · intro hd
    simp [handlePushProxy, hd, not_lt.mpr hcl]
  · intro req hd hs
    simp [handlePushProxy, hd, hs, not_lt.mpr hcl]

theorem claim_C8_amended_witness :
    ∃ l, (handlePushProxy "pkg" (fun _ => .error "boom") pushPath 2
        (.ok (Json.obj [("token", Json.str "abc"), ("owner", Json.str "u1")]))).logs = [l] ∧
      l.push_token = "abc" ∧ l.owner = "u1" := by
  have h := (claim_C8_amended "pkg" (fun _ => .error "boom") 2
    (.ok (Json.obj [("token", Json.str "abc"), ("owner", Json.str "u1")])) (by decide)).1
    { token := "abc", owner := "u1", payload := [], high_priority := false } rfl (by decide)
  exact h

/-- Claim C9: the priority mapping is total and deterministic —
`high_priority = true` yields the priority string "high" (both from
`GetPriority` and inside the translated message) and `high_priority = false`
yields "normal". -/
theorem claim_C9 (pr : PushRequest) (pkg : String) :
    (pr.high_priority = true →
      pr.GetPriority = "high" ∧ (pr.ToFCM pkg).android.priority = "high") ∧
    (pr.high_priority = false →
      pr.GetPriority = "normal" ∧ (pr.ToFCM pkg).android.priority = "normal") := by
  cases hpr : pr.high_priority <;>
    simp [PushRequest.GetPriority, PushRequest.ToFCM, hpr]

theorem claim_C9_witness :
    (PushRequest.GetPriority ⟨"t", "o", [], true⟩ = "high" ∧
      (PushRequest.ToFCM ⟨"t", "o", [], true⟩ "pkg").android.priority = "high") ∧
    (PushRequest.GetPriority ⟨"t", "o", [], false⟩ = "normal" ∧
      (PushRequest.ToFCM ⟨"t", "o", [], false⟩ "pkg").android.priority = "normal") :=
  ⟨(claim_C9 ⟨"t", "o", [], true⟩ "pkg").1 rfl, (claim_C9 ⟨"t", "o", [], false⟩ "pkg").2 rfl⟩

/-- Claim C10: on the push path, a request whose transport declares no
positive content length (0, or -1 for unknown/chunked) is never rejected by
the 4096-byte wire-size check — it always proceeds to JSON decoding. -/
theorem claim_C10 (pkg : String) (send : Message → Except String String)
    (cl : Int) (body : Except Unit Json) (hcl : cl ≤ 0) :
    (handlePushProxy pkg send pushPath cl body).decodeAttempted = true :=
  handler_decodeAttempted pkg send cl body (by rw [maxContentLength]; omega)

theorem claim_C10_witness :
    (handlePushProxy "pkg" (fun _ => .ok "msg-1") pushPath (-1) (.error ())).decodeAttempted =
      true :=
  claim_C10 "pkg" (fun _ => .ok "msg-1") (-1) (.error ()) (by decide)

end GomuksPush
